import Mathlib

/-!
Verification development for `src/ntfs-capture.c` of wimlib (NTFS-volume
capture into a WIM image).  The C code is shallowly embedded: byte blobs are
`List Nat`, machine integers are `Int`/`Nat`, heap mutation becomes explicit
state passing, and every fallible C allocation or library call is driven by an
explicit Boolean oracle so that all control-flow paths of the source are
represented.  Each embedded definition cites the source lines it models.
-/

namespace Wimlib

/-! ## DigestEngine

`sha1_buffer` (from wimlib's sha1 module, outside src/) is modelled as an
ideal collision-free digest: the identity on the byte sequence.  Byte-identical
inputs get identical digests, and — as the deduplication design assumes of a
cryptographic digest — distinct inputs get distinct digests. -/

def sha1_buffer (b : List Nat) : List Nat := b

/-- `hashes_cmp`: memcmp-style three-way comparison of two digests
(lexicographic on the byte sequence). -/
def hashes_cmp : List Nat → List Nat → Ordering
  | [], [] => Ordering.eq
  | [], _ :: _ => Ordering.lt
  | _ :: _, [] => Ordering.gt
  | a :: as, b :: bs =>
    if a < b then Ordering.lt
    else if b < a then Ordering.gt
    else hashes_cmp as bs

/-! ## SecurityDescriptorIndex (lines 51-178)

`struct sd_node` (lines 59-64): a binary-tree node holding a security id and
the descriptor digest.  A NULL pointer is `SdTree.leaf`. -/

inductive SdTree where
  | leaf
  | node (security_id : Int) (hash : List Nat) (left : SdTree) (right : SdTree)
deriving DecidableEq, Repr

/-- Digest stored at the root node of a (non-leaf) tree; used for
`new->hash` reads in `insert_sd_node`. -/
def node_hash : SdTree → List Nat
  | SdTree.leaf => []
  | SdTree.node _ h _ _ => h

/-- `insert_sd_node(new, root)` (lines 77-93): recursive BST insert that
mutates the tree rooted at `root`, hanging the node `new` (together with its
own subtrees) at the first empty child slot on the search path.  Equal keys hit
`wimlib_assert(0)`; that branch leaves the tree unchanged here (it is
unreachable from `sd_set_add_sd`, which only inserts after a failed lookup).
The function returns the updated tree rooted at its second argument. -/
def insert_sd_node (new : SdTree) : SdTree → SdTree
  | SdTree.leaf => SdTree.leaf
  | SdTree.node id h l r =>
    match hashes_cmp (node_hash new) h with
    | Ordering.lt =>
      match l with
      | SdTree.leaf => SdTree.node id h new r
      | lsub => SdTree.node id h (insert_sd_node new lsub) r
    | Ordering.gt =>
      match r with
      | SdTree.leaf => SdTree.node id h l new
      | rsub => SdTree.node id h l (insert_sd_node new rsub)
    | Ordering.eq => SdTree.node id h l r

/-- `lookup_sd` (lines 99-111): BST search by digest, returning the stored
security id, or -1 when absent. -/
def lookup_sd (hash : List Nat) : SdTree → Int
  | SdTree.leaf => -1
  | SdTree.node id h l r =>
    match hashes_cmp hash h with
    | Ordering.lt => lookup_sd hash l
    | Ordering.gt => lookup_sd hash r
    | Ordering.eq => id

/-- `struct wim_security_data`: the output-ready descriptor table.  The C
arrays `descriptors`/`sizes` (each `num_entries` long) become lists; realloc
growth that preserves the stored prefix is a no-op on the list contents. -/
structure WimSecurityData where
  descriptors : List (List Nat)
  sizes : List Nat
  num_entries : Nat
  total_length : Nat
deriving DecidableEq, Repr

/-- `struct sd_set` (lines 53-56). -/
structure SdSet where
  sd : WimSecurityData
  root : SdTree
deriving DecidableEq, Repr

/-- Transient heap blocks MALLOCed by `sd_set_add_sd`. -/
inductive AllocTag where
  | sdNode
  | descrCopy
deriving DecidableEq, Repr

/-- Observable outcome of one `sd_set_add_sd` call: the returned id, the
post-call state, and the transient blocks MALLOCed / FREEd on the way out. -/
structure AddSdResult where
  ret : Int
  state : SdSet
  allocated : List AllocTag
  freed : List AllocTag
deriving DecidableEq, Repr

/-- `sd_set_add_sd` (lines 120-178).  The allocation oracle `alloc` decides the
four fallible steps in program order: 0 = `MALLOC(sizeof(*new))` (line 136),
1 = `MALLOC(size)` for the blob copy (line 139), 2 = `REALLOC` of
`sd->descriptors` (line 152), 3 = `REALLOC` of `sd->sizes` (line 157).

Source-faithful notes:
* On a failed `sizes` realloc the C code has already stored the grown
  `descriptors` pointer (line 156); the stored entries are untouched, so the
  observable table (entry count, blobs, sizes, total length) is the pre-call
  one, which the list model renders as literal equality.
* `total_length += size + sizeof(sd->sizes[0])` (line 165): `sizes` entries
  are u64, so `sizeof` is 8.
* Line 168 calls `insert_sd_node(sd_set->root, new)`, with the arguments in
  the opposite order from the signature `insert_sd_node(new, root)`: the tree
  rooted at the fresh node receives the old root as a child, while
  `sd_set->root` keeps pointing at the old root node, none of whose fields
  `insert_sd_node` writes (the fresh node has NULL children, so the single
  write is to the fresh node's child slot).  Hence the tree reachable from
  `sd_set->root` is unchanged and the fresh node becomes unreachable; the
  discarded `let` below records that call. -/
def sd_set_add_sd (alloc : Nat → Bool) (sdset : SdSet) (descriptor : List Nat) :
    AddSdResult :=
  let hash := sha1_buffer descriptor
  let security_id := lookup_sd hash sdset.root
  if 0 ≤ security_id then
    ⟨security_id, sdset, [], []⟩
  else if alloc 0 = false then
    -- goto out
    ⟨-1, sdset, [], []⟩
  else if alloc 1 = false then
    -- goto out_free_node: FREE(new)
    ⟨-1, sdset, [AllocTag.sdNode], [AllocTag.sdNode]⟩
  else if alloc 2 = false then
    -- goto out_free_descr: FREE(descr_copy); FREE(new)
    ⟨-1, sdset, [AllocTag.sdNode, AllocTag.descrCopy],
      [AllocTag.descrCopy, AllocTag.sdNode]⟩
  else if alloc 3 = false then
    -- goto out_free_descr, after sd->descriptors was already replaced by the
    -- grown array holding the same entries
    ⟨-1, sdset, [AllocTag.sdNode, AllocTag.descrCopy],
      [AllocTag.descrCopy, AllocTag.sdNode]⟩
  else
    let sd := sdset.sd
    let newId : Int := sd.num_entries
    let sd' : WimSecurityData :=
      { descriptors := sd.descriptors ++ [descriptor]
        sizes := sd.sizes ++ [descriptor.length]
        num_entries := sd.num_entries + 1
        total_length := sd.total_length + descriptor.length + 8 }
    let root' : SdTree :=
      match sdset.root with
      | SdTree.leaf => SdTree.node newId hash SdTree.leaf SdTree.leaf
      | t =>
        let _unreachable :=
          insert_sd_node t (SdTree.node newId hash SdTree.leaf SdTree.leaf)
        t
    ⟨newId, ⟨sd', root'⟩, [AllocTag.sdNode, AllocTag.descrCopy], []⟩

/-! ## Error-code constants

Numeric values of the `WIMLIB_ERR_*` codes live in headers outside src/; only
their being nonzero (and distinct) is observable in this file. -/

def WIMLIB_ERR_NOMEM : Int := 12
def WIMLIB_ERR_NTFS_3G : Int := 14
def WIMLIB_ERR_INVALID_PARAM : Int := 2

/-! ## StreamStore / lookup table

`__lookup_resource`, `new_lookup_table_entry`, `lookup_table_insert`, and
`free_lookup_table_entry` live in `lookup_table.c`, which is not under src/.
Modelled from the spec: StreamStore is a digest-keyed store of content
records with reference counting; a fresh record carries reference count 1
(first occurrence), and a hit increments the existing record's count.
Entry identity ("the same object") is the entry's index in the store. -/

structure LookupTableEntry where
  hash : List Nat
  refcnt : Nat
  size : Nat
deriving DecidableEq, Repr

structure LookupTable where
  entries : List LookupTableEntry
deriving DecidableEq, Repr

/-- Digest lookup: index of the first entry with the given digest
(`__lookup_resource`, modelled from the spec). -/
def findEntry : List LookupTableEntry → List Nat → Option Nat
  | [], _ => none
  | e :: es, h => if e.hash = h then some 0 else (findEntry es h).map (· + 1)

/-- `lte->refcnt++` on the entry at index `i`. -/
def incRefcnt : List LookupTableEntry → Nat → List LookupTableEntry
  | [], _ => []
  | e :: es, 0 => ⟨e.hash, e.refcnt + 1, e.size⟩ :: es
  | e :: es, Nat.succ n => e :: incRefcnt es n

/-! ## StreamCapture: `capture_ntfs_streams` (lines 229-329)

One attribute (stream) of the `while (!ntfs_attr_lookup(...))` loop, with the
fallible steps of that iteration driven by per-stream Boolean oracles. -/

/-- One NTFS attribute instance as seen by an iteration of the loop, plus the
oracles for its fallible steps:
* `sha1Ok`    — `ntfs_attr_sha1sum` (line 258)
* `allocLoc`  — `CALLOC(1, sizeof(*ntfs_loc))` (line 272)
* `allocPath` — `MALLOC(path_len + 1)` (line 276)
* `allocName` — `MALLOC(name_length * 2)` (line 280)
* `allocLte`  — `new_lookup_table_entry()` (line 288)
* `nameConvOk` — `utf16_to_utf8` of the stream name (line 303)
* `addAdsOk`  — `dentry_add_ads` (line 309) -/
structure NtfsStream where
  content : List Nat
  nameLen : Nat
  sha1Ok : Bool
  allocLoc : Bool
  allocPath : Bool
  allocName : Bool
  allocLte : Bool
  nameConvOk : Bool
  addAdsOk : Bool
deriving DecidableEq, Repr

/-- The stream references held by one `struct dentry`: the unnamed stream's
entry index (`dentry->lte`) and the alternate-data-stream sequence
(name length, entry index). -/
structure DentryStreams where
  lte : Option Nat
  ads : List (Nat × Nat)
deriving DecidableEq, Repr

inductive StepExit where
  | cont
  | fail (ret : Int)
deriving DecidableEq, Repr

/-- Observables of one loop iteration of `capture_ntfs_streams`:
* `freedEntry` — index of the entry passed to `free_lookup_table_entry` at
  `out_free_lte` (the table itself still holds a fresh entry that was already
  `lookup_table_insert`-ed, and a reused entry stays in the table: the free
  leaves a dangling table slot either way);
* `freedEntryWasReused` — that entry pre-existed this iteration (hit path);
* `cleanupReadUninitLoc` — the cleanup at `out_free_ntfs_loc` (lines 320-325)
  tested the function-scope `ntfs_loc` (line 238), which is never assigned:
  the allocation at line 272 initializes a distinct, shadowing declaration
  (line 269) that is out of scope at the label;
* `leakedNewLoc` — a freshly CALLOCed inner `ntfs_loc` was never freed. -/
structure StepResult where
  exit : StepExit
  table : LookupTable
  dentry : DentryStreams
  attached : Option Nat
  freedEntry : Option Nat
  freedEntryWasReused : Bool
  cleanupReadUninitLoc : Bool
  leakedNewLoc : Bool
deriving DecidableEq, Repr

/-- Lines 298-314: attach the looked-up/created entry `i` to the dentry.
Unnamed streams take `dentry->lte = lte` (after `wimlib_assert(!dentry->lte)`,
which the code follows by the assignment; the assertion itself is not
modelled).  Named streams convert the name and append an ads entry; on either
failure, `goto out_free_lte` runs `free_lookup_table_entry(lte)` whether or
not `lte` was freshly created, then falls into `out_free_ntfs_loc`, which
reads the uninitialized outer `ntfs_loc`.  `ret` is `WIMLIB_ERR_NOMEM`, set
at line 265. -/
def attach_step (tbl : LookupTable) (d : DentryStreams) (s : NtfsStream)
    (i : Nat) (isNew : Bool) : StepResult :=
  if s.nameLen = 0 then
    ⟨StepExit.cont, tbl, ⟨some i, d.ads⟩, some i, none, false, false, false⟩
  else if s.nameConvOk = false then
    ⟨StepExit.fail WIMLIB_ERR_NOMEM, tbl, d, none, some i, !isNew, true, false⟩
  else if s.addAdsOk = false then
    ⟨StepExit.fail WIMLIB_ERR_NOMEM, tbl, d, none, some i, !isNew, true, false⟩
  else
    ⟨StepExit.cont, tbl, ⟨d.lte, d.ads ++ [(s.nameLen, i)]⟩, some i, none,
      false, false, false⟩

/-- One iteration of the stream loop of `capture_ntfs_streams`
(lines 251-315).  Digest the stream (line 258), look it up (line 264); a hit
increments the entry's refcount (line 267), a miss builds the location
descriptor and a fresh entry with refcount 1 and inserts it (lines 269-296);
then the attach phase runs.  The `goto out_free_ntfs_loc` paths (lines 274,
278, 282, 290) reach the cleanup that reads the uninitialized outer
`ntfs_loc`; on the paths from lines 278/282/290 the freshly CALLOCed inner
`ntfs_loc` leaks (it is out of scope at the label). -/
def capture_step (tbl : LookupTable) (d : DentryStreams) (s : NtfsStream) :
    StepResult :=
  if s.sha1Ok = false then
    ⟨StepExit.fail WIMLIB_ERR_NTFS_3G, tbl, d, none, none, false, false, false⟩
  else
    match findEntry tbl.entries (sha1_buffer s.content) with
    | some i => attach_step ⟨incRefcnt tbl.entries i⟩ d s i false
    | none =>
      if s.allocLoc = false then
        ⟨StepExit.fail WIMLIB_ERR_NOMEM, tbl, d, none, none, false, false, false⟩
      else if s.allocPath = false then
        ⟨StepExit.fail WIMLIB_ERR_NOMEM, tbl, d, none, none, false, true, true⟩
      else if s.allocName = false then
        ⟨StepExit.fail WIMLIB_ERR_NOMEM, tbl, d, none, none, false, true, true⟩
      else if s.allocLte = false then
        ⟨StepExit.fail WIMLIB_ERR_NOMEM, tbl, d, none, none, false, true, true⟩
      else
        attach_step
          ⟨tbl.entries ++ [⟨sha1_buffer s.content, 1, s.content.length⟩]⟩
          d s tbl.entries.length true

/-- The successful-path lookup-or-create of one stream content: index attached
and the updated table (hit: bump refcount of the found entry; miss: append a
fresh entry with refcount 1). -/
def addContent (tbl : LookupTable) (c : List Nat) : Nat × LookupTable :=
  match findEntry tbl.entries (sha1_buffer c) with
  | some i => (i, ⟨incRefcnt tbl.entries i⟩)
  | none =>
    (tbl.entries.length, ⟨tbl.entries ++ [⟨sha1_buffer c, 1, c.length⟩]⟩)

/-- A stream capture with every external step succeeding, unnamed. -/
def okStream (c : List Nat) : NtfsStream :=
  ⟨c, 0, true, true, true, true, true, true, true⟩

/-- One capture session over a list of stream contents, each captured (via
`capture_step`, all external steps succeeding) as the unnamed data stream of
its own dentry, threading the shared lookup table; returns the final table
and the entry index attached for each stream in order. -/
def captureSession : LookupTable → List (List Nat) → LookupTable × List Nat
  | tbl, [] => (tbl, [])
  | tbl, c :: cs =>
    let r := capture_step tbl ⟨none, []⟩ (okStream c)
    let rest := captureSession r.table cs
    (rest.1, r.attached.getD 0 :: rest.2)

/-- `sessionA`: the same session expressed through `addContent`; proved equal
to `captureSession` below and used for the induction. -/
def sessionA : LookupTable → List (List Nat) → LookupTable × List Nat
  | tbl, [] => (tbl, [])
  | tbl, c :: cs =>
    ((sessionA (addContent tbl c).2 cs).1,
      (addContent tbl c).1 :: (sessionA (addContent tbl c).2 cs).2)

/-- Positional lookup in a list. -/
def nth {α : Type} : List α → Nat → Option α
  | [], _ => none
  | a :: _, 0 => some a
  | _ :: l, Nat.succ k => nth l k

/-- Number of occurrences of the blob `c` in a list of blobs. -/
def countBlob (c : List Nat) : List (List Nat) → Nat
  | [] => 0
  | b :: bs => (if b = c then 1 else 0) + countBlob c bs

/-- Number of streams in the list whose digest is `h`. -/
def countHash : List (List Nat) → List Nat → Nat
  | [], _ => 0
  | c :: cs, h => (if sha1_buffer c = h then 1 else 0) + countHash cs h

/-- Sum of the reference counts of the entries with digest `h` (with distinct
digests, the refcount of the unique such entry). -/
def refcntSum : List LookupTableEntry → List Nat → Nat
  | [], _ => 0
  | e :: es, h => (if e.hash = h then e.refcnt else 0) + refcntSum es h

/-- The table's digests are pairwise distinct. -/
inductive HashesDistinct : List LookupTableEntry → Prop
  | nil : HashesDistinct []
  | cons (e : LookupTableEntry) (es : List LookupTableEntry) :
      findEntry es e.hash = none → HashesDistinct es →
      HashesDistinct (e :: es)

/-! ## TreeBuilder: `filldir` (lines 348-389) and
`__build_dentry_tree_ntfs` (lines 395-461) -/

/-- `char path[4096]` in `build_dentry_tree_ntfs` (line 491): the fixed
capacity of the shared path buffer. -/
def PATH_BUFFER_CAPACITY : Nat := 4096

/-- Observables of one `filldir` callback invocation:
* `ret` — the callback's return value;
* `linked` — `link_dentry(child, ctx->dentry)` was executed (line 382);
* `recursed` — `__build_dentry_tree_ntfs` was invoked (line 379);
* `recursedWithNullInode` — it was invoked although `ntfs_inode_open` had
  returned NULL (lines 368-372 set `ret = 1` without jumping to an exit
  label, so control falls through; the recursion then dereferences the NULL
  inode, which is undefined behavior in the C — the model records the flag
  and lets the modelled recursion result stand in);
* `pathWriteEnd` — one past the last byte offset of `ctx->path` written by
  `memcpy(ctx->path + ctx->path_len, utf8_name, utf8_name_len + 1)`
  (line 377); the source performs this copy with no capacity test. -/
structure FilldirResult where
  ret : Int
  linked : Bool
  recursed : Bool
  recursedWithNullInode : Bool
  pathWriteEnd : Option Nat
deriving DecidableEq, Repr

/-- `filldir` (lines 348-389), with its fallible steps driven by oracles:
`utf8_ok` — `utf16_to_utf8` of the entry name (line 361); `inode_ok` —
`ntfs_inode_open` (line 368); `dentry_ok` — `new_dentry` (line 373);
`buildRet` — the value returned by `__build_dentry_tree_ntfs` for the child
(line 379).  `ret` starts at -1 (line 359). -/
def filldir (utf8_ok : Bool) (utf8_name_len : Nat) (inode_ok : Bool)
    (dentry_ok : Bool) (path_len : Nat) (buildRet : Int) : FilldirResult :=
  if utf8_ok = false then
    -- goto out: return -1
    ⟨-1, false, false, false, none⟩
  else if dentry_ok = false then
    -- goto out_close_ni: ret is still -1 unless the inode open failed first,
    -- which set ret = 1
    ⟨if inode_ok then -1 else 1, false, false, false, none⟩
  else
    -- memcpy into ctx->path, recurse, then link_dentry unconditionally
    ⟨buildRet, true, true, !inode_ok, some (path_len + utf8_name_len + 1)⟩

/-! Attribute-flag constants, from the ntfs-3g headers included at lines
36-42 (external collaborator): the standard NTFS values. -/

def FILE_ATTR_REPARSE_POINT : Nat := 0x400
def MFT_RECORD_IS_DIRECTORY : Nat := 0x2

/-- The three capture states of a filesystem object. -/
inductive CaptureClass where
  | reparseStream   -- capture_ntfs_streams(..., AT_REPARSE_POINT)
  | directoryEnum   -- ntfs_readdir(ni, &pos, &ctx, filldir)
  | defaultStream   -- capture_ntfs_streams(..., AT_DATA)
deriving DecidableEq, Repr

/-- The three-way branch of `__build_dentry_tree_ntfs` (lines 414-439):
`if (attributes & FILE_ATTR_REPARSE_POINT) ... else if (mrec_flags &
MFT_RECORD_IS_DIRECTORY) ... else ...`. -/
def build_dentry_tree_classify (attributes mrec_flags : Nat) : CaptureClass :=
  if attributes &&& FILE_ATTR_REPARSE_POINT ≠ 0 then CaptureClass.reparseStream
  else if mrec_flags &&& MFT_RECORD_IS_DIRECTORY ≠ 0 then
    CaptureClass.directoryEnum
  else CaptureClass.defaultStream

/-! ## Public entry point: `wimlib_add_image_from_ntfs_volume`
(lines 507-521) -/

/-- Collaborator calls that a capture performs; used to observe that nothing
ran before the flag check rejected the call. -/
inductive CaptureAction where
  | mountVolume
  | addImage
deriving DecidableEq, Repr

/-- Result of the public entry point: return code, resulting WIM state
(abstract), and the collaborator actions performed. -/
structure EntryCallResult where
  ret : Int
  wim : Nat
  actions : List CaptureAction
deriving DecidableEq, Repr

/-- Modelled from the spec: the numeric value of the public flag
`WIMLIB_ADD_IMAGE_FLAG_DEREFERENCE` lives in wimlib.h, which is not under
src/; only the bit test against it is observable here. -/
def WIMLIB_ADD_IMAGE_FLAG_DEREFERENCE : Nat := 4

/-- `wimlib_add_image_from_ntfs_volume` (lines 507-521).  `do_add_image`
(defined elsewhere in the repository, not under src/) is the arbitrary
continuation that would mount the volume via `build_dentry_tree_ntfs` and
mutate the WIM; it is a parameter so the theorem quantifies over it.  The
flag test at line 514 short-circuits before it is invoked. -/
def wimlib_add_image_from_ntfs_volume
    (do_add_image : Nat → EntryCallResult) (w : Nat) (flags : Nat) :
    EntryCallResult :=
  if flags &&& WIMLIB_ADD_IMAGE_FLAG_DEREFERENCE ≠ 0 then
    ⟨WIMLIB_ERR_INVALID_PARAM, w, []⟩
  else
    do_add_image w

/-! ## Theorems -/

/-- Claim C1: false on the code.  With descriptors A = [0], B = [1], B = [1]
added in that order (all allocations succeeding), the two byte-identical
additions of B return different identifiers (1, then 2) and the table ends
with two entries for B: the call at line 168 passes `insert_sd_node` its
arguments in swapped order, so the node for B never becomes reachable from
`sd_set->root` and the duplicate is not found — contradicting the function's
own documentation (lines 113-118) and the intent of `wimlib_assert(0)` in
`insert_sd_node`. -/
theorem C1_duplicate_sd_gets_new_id :
    (let allOk : Nat → Bool := fun _ => true
     let s0 : SdSet := ⟨⟨[], [], 0, 0⟩, SdTree.leaf⟩
     let r1 := sd_set_add_sd allOk s0 [0]
     let r2 := sd_set_add_sd allOk r1.state [1]
     let r3 := sd_set_add_sd allOk r2.state [1]
     r1.ret = 0 ∧ r2.ret = 1 ∧ r3.ret = 2 ∧
       r3.state.sd.descriptors = [[0], [1], [1]] ∧
       r3.state.sd.num_entries = 3) := by
  decide

/-- Claim C7: false on the code, by the same swapped-argument insert as C1.
In the session A = [0], B = [1], B = [1], blob [1] is the 2nd unique
descriptor, so the claim says it receives identifier 1; instead it is stored
under both identifier 1 and identifier 2 (its re-addition was treated as new),
so identifier assignment is not the claimed k-th-unique-gets-k-1 map. -/
theorem C7_unique_descriptor_two_ids :
    (let allOk : Nat → Bool := fun _ => true
     let s0 : SdSet := ⟨⟨[], [], 0, 0⟩, SdTree.leaf⟩
     let r1 := sd_set_add_sd allOk s0 [0]
     let r2 := sd_set_add_sd allOk r1.state [1]
     let r3 := sd_set_add_sd allOk r2.state [1]
     nth r3.state.sd.descriptors 1 = some [1] ∧
       nth r3.state.sd.descriptors 2 = some [1] ∧
       r2.ret = 1 ∧ r3.ret = 2) := by
  decide

/-- Claim C2, counterexample: with name conversion, inode open and dentry
allocation all succeeding and the recursive capture returning the hard error
14 (`WIMLIB_ERR_NTFS_3G`), `filldir` still executes `link_dentry`: the claim
"a hard error implies the child is not linked into the parent" is false at
this input. -/
theorem C2_counterexample :
    ¬ ((filldir true 3 true true 1 14).ret ≠ 0 →
        (filldir true 3 true true 1 14).linked = false) := by
  decide

/-- Claim C2, amended: `filldir` links the child into the parent
unconditionally — `link_dentry(child, ctx->dentry)` (line 382) runs whatever
`__build_dentry_tree_ntfs` returned — so a hard error from the recursive
capture propagates as the callback's return value while the partially built
child remains linked under the parent. -/
theorem C2_link_unconditional (n plen : Nat) (r : Int) :
    (filldir true n true true plen r).ret = r ∧
      (filldir true n true true plen r).linked = true := by
  constructor <;> rfl

/-- Claim C4: false on the code.  At `ctx->path_len = 4090` with an entry
name of 10 bytes, the would-be path needs bytes up to offset 4101 > 4096, yet
`filldir` performs the `memcpy` (line 377) with no capacity test and returns
success — no `PathTooLong` (or any) error exists on this path. -/
theorem C4_no_capacity_check :
    (filldir true 10 true true 4090 0).pathWriteEnd = some 4101 ∧
      4101 > PATH_BUFFER_CAPACITY ∧
      (filldir true 10 true true 4090 0).ret = 0 ∧
      (filldir true 10 true true 4090 0).linked = true := by
  decide

/-- Claim C5: false on the code for the inode-open-failure case.  When
`ntfs_inode_open` fails (and `new_dentry` succeeds), lines 369-372 set
`ret = 1` but lack the early exit: control falls through, the recursion is
invoked on the NULL inode (undefined behavior in the C), and the recorded
error value is overwritten by the recursion's result — here 0 — so the
child-level failure neither aborts the enumeration nor propagates up. -/
theorem C5_open_failure_not_propagated :
    (filldir true 3 false true 1 0).recursedWithNullInode = true ∧
      (filldir true 3 false true 1 0).ret = 0 ∧
      (filldir true 3 false true 1 0).linked = true := by
  decide

/-- Claim C6: false on the code for the reuse path.  For a named stream whose
content digest is already in the lookup table (hit, refcount incremented) and
whose name conversion fails, `goto out_free_lte` passes the REUSED entry to
`free_lookup_table_entry` — the claim says a failure on the reuse path
releases nothing — and the subsequent cleanup tests the outer `ntfs_loc`,
which is never assigned (the allocated descriptor initializes the shadowing
inner declaration at line 269). -/
theorem C6_reused_entry_freed :
    (let tbl : LookupTable := ⟨[⟨[7], 1, 1⟩]⟩
     let s : NtfsStream := ⟨[7], 1, true, true, true, true, true, false, true⟩
     let r := capture_step tbl ⟨none, []⟩ s
     r.freedEntry = some 0 ∧ r.freedEntryWasReused = true ∧
       r.exit = StepExit.fail WIMLIB_ERR_NOMEM ∧
       r.cleanupReadUninitLoc = true) := by
  decide

/-- Claim C8: for every visited object, the three-way branch of
`__build_dentry_tree_ntfs` (lines 414-439) gives the reparse-point attribute
flag precedence over the directory bit: a reparse-flagged object is captured
via the reparse-data stream category and never enumerated as a directory,
even when the directory bit is also set; without the reparse flag, the
directory bit selects enumeration, and otherwise the default-data category. -/
theorem C8_three_way_classification (attributes mrec_flags : Nat) :
    (attributes &&& FILE_ATTR_REPARSE_POINT ≠ 0 →
      build_dentry_tree_classify attributes mrec_flags =
          CaptureClass.reparseStream ∧
        build_dentry_tree_classify attributes mrec_flags ≠
          CaptureClass.directoryEnum) ∧
    (attributes &&& FILE_ATTR_REPARSE_POINT = 0 →
      mrec_flags &&& MFT_RECORD_IS_DIRECTORY ≠ 0 →
      build_dentry_tree_classify attributes mrec_flags =
        CaptureClass.directoryEnum) ∧
    (attributes &&& FILE_ATTR_REPARSE_POINT = 0 →
      mrec_flags &&& MFT_RECORD_IS_DIRECTORY = 0 →
      build_dentry_tree_classify attributes mrec_flags =
        CaptureClass.defaultStream) := by
  refine ⟨fun h => ?_, fun h hd => ?_, fun h hd => ?_⟩
  · simp [build_dentry_tree_classify, h]
  · simp [build_dentry_tree_classify, h, hd]
  · simp [build_dentry_tree_classify, h, hd]

/-- Witness for C8 at the junction-point input: attributes 0x410 carry both
the reparse flag (0x400) and the directory attribute bit (0x10), and the MFT
record flags mark a directory (0x2); classification is reparse-stream capture
and not directory enumeration. -/
theorem C8_witness :
    (0x410 &&& FILE_ATTR_REPARSE_POINT ≠ 0) ∧
      (build_dentry_tree_classify 0x410 0x2 = CaptureClass.reparseStream ∧
        build_dentry_tree_classify 0x410 0x2 ≠ CaptureClass.directoryEnum) :=
  ⟨by decide, (C8_three_way_classification 0x410 0x2).1 (by decide)⟩

/-- Claim C9: a `sd_set_add_sd` call on a not-yet-present descriptor in which
any of the four fallible allocation steps (tree node, blob copy, descriptors
growth, sizes growth) fails returns -1, leaves the descriptor table (entry
count, stored blobs, sizes, running total length) and the index tree exactly
as before the call, and frees exactly the transient blocks it had allocated
(in reverse allocation order, per the `out_free_descr`/`out_free_node`
cascade). -/
theorem C9_alloc_failure_rollback (alloc : Nat → Bool) (s : SdSet)
    (d : List Nat)
    (hmiss : lookup_sd (sha1_buffer d) s.root < 0)
    (hfail : alloc 0 = false ∨ alloc 1 = false ∨ alloc 2 = false ∨
      alloc 3 = false) :
    (sd_set_add_sd alloc s d).ret = -1 ∧
      (sd_set_add_sd alloc s d).state = s ∧
      (sd_set_add_sd alloc s d).freed =
        (sd_set_add_sd alloc s d).allocated.reverse := by
  have hnot : ¬ 0 ≤ lookup_sd (sha1_buffer d) s.root := by omega
  unfold sd_set_add_sd
  rcases h0 : alloc 0 with _ | _ <;> rcases h1 : alloc 1 with _ | _ <;>
    rcases h2 : alloc 2 with _ | _ <;> rcases h3 : alloc 3 with _ | _ <;>
    first
      | (simp [hnot, h0, h1, h2, h3]; done)
      | exact absurd hfail (by simp [h0, h1, h2, h3])

/-- Witness for C9: starting from the empty set with descriptor [5] and an
allocator that fails at the descriptors-growth step (step 2), the call
returns -1 with the state preserved and the transient blocks freed. -/
theorem C9_witness :
    (lookup_sd (sha1_buffer [5]) (SdSet.mk ⟨[], [], 0, 0⟩ SdTree.leaf).root
        < 0) ∧
      ((fun n => decide (n < 2)) 0 = false ∨
        (fun n => decide (n < 2)) 1 = false ∨
        (fun n => decide (n < 2)) 2 = false ∨
        (fun n => decide (n < 2)) 3 = false) ∧
      ((sd_set_add_sd (fun n => decide (n < 2))
          (SdSet.mk ⟨[], [], 0, 0⟩ SdTree.leaf) [5]).ret = -1 ∧
        (sd_set_add_sd (fun n => decide (n < 2))
          (SdSet.mk ⟨[], [], 0, 0⟩ SdTree.leaf) [5]).state =
            SdSet.mk ⟨[], [], 0, 0⟩ SdTree.leaf ∧
        (sd_set_add_sd (fun n => decide (n < 2))
          (SdSet.mk ⟨[], [], 0, 0⟩ SdTree.leaf) [5]).freed =
          (sd_set_add_sd (fun n => decide (n < 2))
            (SdSet.mk ⟨[], [], 0, 0⟩ SdTree.leaf) [5]).allocated.reverse) :=
  ⟨by decide, by decide,
    C9_alloc_failure_rollback (fun n => decide (n < 2))
      (SdSet.mk ⟨[], [], 0, 0⟩ SdTree.leaf) [5] (by decide) (by decide)⟩

/-- Claim C10: with the dereference flag set in the flags argument,
`wimlib_add_image_from_ntfs_volume` returns `WIMLIB_ERR_INVALID_PARAM`
immediately: `do_add_image` — and hence any volume mount or capture-state
creation — is never invoked (no actions performed) and the WIM state is
returned unchanged. -/
theorem C10_dereference_rejected (do_add_image : Nat → EntryCallResult)
    (w flags : Nat)
    (h : flags &&& WIMLIB_ADD_IMAGE_FLAG_DEREFERENCE ≠ 0) :
    wimlib_add_image_from_ntfs_volume do_add_image w flags =
      ⟨WIMLIB_ERR_INVALID_PARAM, w, []⟩ := by
  simp [wimlib_add_image_from_ntfs_volume, h]

/-- Witness for C10 at flags = 4 (dereference bit set), a WIM state 7, and a
continuation that would mutate the WIM and mount the volume. -/
theorem C10_witness :
    ((4 : Nat) &&& WIMLIB_ADD_IMAGE_FLAG_DEREFERENCE ≠ 0) ∧
      wimlib_add_image_from_ntfs_volume
          (fun n => ⟨0, n + 1, [CaptureAction.mountVolume]⟩) 7 4 =
        ⟨WIMLIB_ERR_INVALID_PARAM, 7, []⟩ :=
  ⟨by decide,
    C10_dereference_rejected (fun n => ⟨0, n + 1, [CaptureAction.mountVolume]⟩)
      7 4 (by decide)⟩

/-! ### Lookup-table invariants for claim C3 -/

/-- Bumping a refcount changes no digest, so digest lookup is unaffected. -/
theorem findEntry_incRefcnt (es : List LookupTableEntry) (i : Nat)
    (h : List Nat) : findEntry (incRefcnt es i) h = findEntry es h := by
  induction es generalizing i with
  | nil => cases i <;> rfl
  | cons e es ih =>
    cases i with
    | zero => simp [incRefcnt, findEntry]
    | succ j => simp [incRefcnt, findEntry, ih]

/-- Appending entries does not change the index of an already-found digest. -/
theorem findEntry_append_some (es l : List LookupTableEntry) (h : List Nat)
    (i : Nat) (hf : findEntry es h = some i) :
    findEntry (es ++ l) h = some i := by
  induction es generalizing i with
  | nil => simp [findEntry] at hf
  | cons e es ih =>
    by_cases he : e.hash = h
    · simp [findEntry, he] at hf
      simp [findEntry, he, hf]
    · cases hfe : findEntry es h with
      | none => simp [findEntry, he, hfe] at hf
      | some j =>
        simp [findEntry, he, hfe] at hf
        simp [findEntry, he, ih j hfe, hf]

/-- A digest absent from the table is found at the appended position. -/
theorem findEntry_append_self (es : List LookupTableEntry) (h : List Nat)
    (sz : Nat) (hf : findEntry es h = none) :
    findEntry (es ++ [⟨h, 1, sz⟩]) h = some es.length := by
  induction es with
  | nil => simp [findEntry]
  | cons e es ih =>
    have he : ¬ e.hash = h := by
      intro hh
      simp [findEntry, hh] at hf
    have hf' : findEntry es h = none := by
      cases hfe : findEntry es h with
      | none => rfl
      | some j => simp [findEntry, he, hfe] at hf
    simp [findEntry, he, ih hf']

/-- Appending an entry with a different digest keeps an absent digest
absent. -/
theorem findEntry_append_other (es : List LookupTableEntry) (h h0 : List Nat)
    (sz : Nat) (hf : findEntry es h0 = none) (hne : h ≠ h0) :
    findEntry (es ++ [⟨h, 1, sz⟩]) h0 = none := by
  induction es with
  | nil => simp [findEntry, hne]
  | cons e es ih =>
    have he : ¬ e.hash = h0 := by
      intro hh
      simp [findEntry, hh] at hf
    have hf' : findEntry es h0 = none := by
      cases hfe : findEntry es h0 with
      | none => rfl
      | some j => simp [findEntry, he, hfe] at hf
    simp [findEntry, he, ih hf']

/-- An absent digest contributes no reference count. -/
theorem refcntSum_zero_of_none (es : List LookupTableEntry) (h : List Nat)
    (hf : findEntry es h = none) : refcntSum es h = 0 := by
  induction es with
  | nil => rfl
  | cons e es ih =>
    have he : ¬ e.hash = h := by
      intro hh
      simp [findEntry, hh] at hf
    have hf' : findEntry es h = none := by
      cases hfe : findEntry es h with
      | none => rfl
      | some j => simp [findEntry, he, hfe] at hf
    simp [refcntSum, he, ih hf']

theorem refcntSum_append (es l : List LookupTableEntry) (h : List Nat) :
    refcntSum (es ++ l) h = refcntSum es h + refcntSum l h := by
  induction es with
  | nil => simp [refcntSum]
  | cons e es ih =>
    simp [refcntSum, ih]
    omega

/-- `lte->refcnt++` on the entry found for digest `h0` adds exactly one to the
reference count held under `h0` and nothing elsewhere. -/
theorem refcntSum_incRefcnt (es : List LookupTableEntry) (i : Nat)
    (h0 h : List Nat) (hf : findEntry es h0 = some i) :
    refcntSum (incRefcnt es i) h =
      refcntSum es h + (if h0 = h then 1 else 0) := by
  induction es generalizing i with
  | nil => simp [findEntry] at hf
  | cons e es ih =>
    by_cases he : e.hash = h0
    · have hi : i = 0 := by
        simp [findEntry, he] at hf
        omega
      subst hi
      by_cases hh : h0 = h
      · have heh : e.hash = h := hh ▸ he
        simp [incRefcnt, refcntSum, heh, hh]
        omega
      · have heh : ¬ e.hash = h := fun hc => hh (he ▸ hc)
        simp [incRefcnt, refcntSum, heh, hh]
    · cases hfe : findEntry es h0 with
      | none => simp [findEntry, he, hfe] at hf
      | some j =>
        have hi : i = j + 1 := by
          simp [findEntry, he, hfe] at hf
          omega
        subst hi
        simp [incRefcnt, refcntSum, ih j hfe]
        omega

theorem hashesDistinct_incRefcnt (es : List LookupTableEntry) (i : Nat)
    (hd : HashesDistinct es) : HashesDistinct (incRefcnt es i) := by
  induction es generalizing i with
  | nil => cases i <;> exact hd
  | cons e es ih =>
    cases hd with
    | cons _ _ h1 h2 =>
      cases i with
      | zero => exact HashesDistinct.cons _ _ h1 h2
      | succ j =>
        exact HashesDistinct.cons _ _
          (by rw [findEntry_incRefcnt]; exact h1) (ih j h2)

theorem hashesDistinct_snoc (es : List LookupTableEntry) (h : List Nat)
    (sz : Nat) (hf : findEntry es h = none) (hd : HashesDistinct es) :
    HashesDistinct (es ++ [⟨h, 1, sz⟩]) := by
  induction es with
  | nil => exact HashesDistinct.cons _ _ rfl HashesDistinct.nil
  | cons e es ih =>
    cases hd with
    | cons _ _ h1 h2 =>
      have he : ¬ e.hash = h := by
        intro hh
        simp [findEntry, hh] at hf
      have hf' : findEntry es h = none := by
        cases hfe : findEntry es h with
        | none => rfl
        | some j => simp [findEntry, he, hfe] at hf
      exact HashesDistinct.cons _ _
        (findEntry_append_other es h e.hash sz h1 (fun hc => he hc.symm))
        (ih hf' h2)

/-- With pairwise-distinct digests, the entry at the found index carries the
whole reference count held under its digest. -/
theorem refcnt_at_found (es : List LookupTableEntry) (h : List Nat) (m : Nat)
    (hd : HashesDistinct es) (hf : findEntry es h = some m) :
    ∃ e, nth es m = some e ∧ e.hash = h ∧ e.refcnt = refcntSum es h := by
  induction es generalizing m with
  | nil => simp [findEntry] at hf
  | cons e es ih =>
    cases hd with
    | cons _ _ h1 h2 =>
      by_cases he : e.hash = h
      · have hm : m = 0 := by
          simp [findEntry, he] at hf
          omega
        subst hm
        refine ⟨e, rfl, he, ?_⟩
        have hnone : findEntry es h = none := he ▸ h1
        simp [refcntSum, he, refcntSum_zero_of_none es h hnone]
      · cases hfe : findEntry es h with
        | none => simp [findEntry, he, hfe] at hf
        | some j =>
          have hm : m = j + 1 := by
            simp [findEntry, he, hfe] at hf
            omega
          subst hm
          obtain ⟨e', he1, he2, he3⟩ := ih j h2 hfe
          exact ⟨e', he1, he2, by simp [refcntSum, he, he3]⟩

/-! ### `addContent` and session lemmas for claim C3 -/

theorem addContent_find_stable (tbl : LookupTable) (c h : List Nat) (i : Nat)
    (hf : findEntry tbl.entries h = some i) :
    findEntry (addContent tbl c).2.entries h = some i := by
  cases hfc : findEntry tbl.entries (sha1_buffer c) with
  | some j =>
    simp [addContent, hfc, findEntry_incRefcnt]
    exact hf
  | none =>
    simp [addContent, hfc]
    exact findEntry_append_some _ _ _ _ hf

theorem addContent_find_self (tbl : LookupTable) (c : List Nat) :
    findEntry (addContent tbl c).2.entries (sha1_buffer c) =
      some (addContent tbl c).1 := by
  cases hfc : findEntry tbl.entries (sha1_buffer c) with
  | some j => simp [addContent, hfc, findEntry_incRefcnt]
  | none => simp [addContent, hfc, findEntry_append_self _ _ c.length hfc]

theorem addContent_refcnt (tbl : LookupTable) (c h : List Nat) :
    refcntSum (addContent tbl c).2.entries h =
      refcntSum tbl.entries h + (if sha1_buffer c = h then 1 else 0) := by
  cases hfc : findEntry tbl.entries (sha1_buffer c) with
  | some j => simp [addContent, hfc, refcntSum_incRefcnt _ _ _ _ hfc]
  | none => simp [addContent, hfc, refcntSum_append, refcntSum]

theorem addContent_distinct (tbl : LookupTable) (c : List Nat)
    (hd : HashesDistinct tbl.entries) :
    HashesDistinct (addContent tbl c).2.entries := by
  cases hfc : findEntry tbl.entries (sha1_buffer c) with
  | some j => simpa [addContent, hfc] using hashesDistinct_incRefcnt _ j hd
  | none =>
    simpa [addContent, hfc] using hashesDistinct_snoc _ _ c.length hfc hd

theorem sessionA_find_stable (cs : List (List Nat)) (tbl : LookupTable)
    (h : List Nat) (i : Nat) (hf : findEntry tbl.entries h = some i) :
    findEntry (sessionA tbl cs).1.entries h = some i := by
  induction cs generalizing tbl with
  | nil => exact hf
  | cons c cs ih =>
    simp only [sessionA]
    exact ih _ (addContent_find_stable tbl c h i hf)

/-- Every attached index is the index at which the final table finds that
stream's digest; equal contents therefore share one attached index. -/
theorem sessionA_attached (cs : List (List Nat)) (tbl : LookupTable) (k : Nat)
    (c : List Nat) (hk : nth cs k = some c) :
    ∃ m, nth (sessionA tbl cs).2 k = some m ∧
      findEntry (sessionA tbl cs).1.entries (sha1_buffer c) = some m := by
  induction cs generalizing tbl k with
  | nil => simp [nth] at hk
  | cons c0 cs ih =>
    cases k with
    | zero =>
      have hc : c0 = c := by simpa [nth] using hk
      subst hc
      refine ⟨(addContent tbl c0).1, ?_, ?_⟩
      · simp [sessionA, nth]
      · simp only [sessionA]
        exact sessionA_find_stable cs _ _ _ (addContent_find_self tbl c0)
    | succ k =>
      have hk' : nth cs k = some c := hk
      obtain ⟨m, hm1, hm2⟩ := ih (addContent tbl c0).2 k hk'
      exact ⟨m, hm1, hm2⟩

/-- The final reference count held under a digest is the starting count plus
the number of captured streams with that digest. -/
theorem sessionA_refcnt (cs : List (List Nat)) (tbl : LookupTable)
    (h : List Nat) :
    refcntSum (sessionA tbl cs).1.entries h =
      refcntSum tbl.entries h + countHash cs h := by
  induction cs generalizing tbl with
  | nil => simp [sessionA, countHash]
  | cons c cs ih =>
    simp only [sessionA, countHash]
    rw [ih, addContent_refcnt]
    omega

theorem sessionA_distinct (cs : List (List Nat)) (tbl : LookupTable)
    (hd : HashesDistinct tbl.entries) :
    HashesDistinct (sessionA tbl cs).1.entries := by
  induction cs generalizing tbl with
  | nil => exact hd
  | cons c cs ih =>
    simp only [sessionA]
    exact ih _ (addContent_distinct tbl c hd)

/-- On a stream with every external step succeeding, one loop iteration of
`capture_ntfs_streams` performs exactly the lookup-or-create of
`addContent` and attaches the resulting entry index as the dentry's unnamed
stream reference. -/
theorem capture_step_ok (tbl : LookupTable) (d : DentryStreams)
    (c : List Nat) :
    capture_step tbl d (okStream c) =
      ⟨StepExit.cont, (addContent tbl c).2,
        ⟨some (addContent tbl c).1, d.ads⟩, some (addContent tbl c).1, none,
        false, false, false⟩ := by
  cases hfc : findEntry tbl.entries (sha1_buffer c) with
  | some j => simp [capture_step, okStream, attach_step, addContent, hfc]
  | none => simp [capture_step, okStream, attach_step, addContent, hfc]

theorem captureSession_eq (tbl : LookupTable) (cs : List (List Nat)) :
    captureSession tbl cs = sessionA tbl cs := by
  induction cs generalizing tbl with
  | nil => rfl
  | cons c cs ih => simp [captureSession, sessionA, capture_step_ok, ih]

/-- With the identity digest, counting streams by digest is counting them by
content. -/
theorem countHash_sha1 (cs : List (List Nat)) (c : List Nat) :
    countHash cs (sha1_buffer c) = countBlob c cs := by
  induction cs with
  | nil => rfl
  | cons b bs ih =>
    simp only [countHash, countBlob, sha1_buffer] at ih ⊢
    rw [ih]

/-- Claim C3: in one capture session (lookup table starting empty, every
stream captured through the `capture_ntfs_streams` loop with all external
steps succeeding), any two streams with byte-identical content are attached
the same lookup-table entry (same index, i.e. the same object), and that
entry's reference count equals the number of occurrences of that content in
the session — a fresh entry starts at count 1 on first occurrence and every
later occurrence increments it by one. -/
theorem C3_stream_dedup (cs : List (List Nat)) (i j : Nat) (c : List Nat)
    (hi : nth cs i = some c) (hj : nth cs j = some c) :
    nth (captureSession ⟨[]⟩ cs).2 i = nth (captureSession ⟨[]⟩ cs).2 j ∧
      ∃ m e, nth (captureSession ⟨[]⟩ cs).2 i = some m ∧
        nth (captureSession ⟨[]⟩ cs).1.entries m = some e ∧
        e.refcnt = countBlob c cs := by
  rw [captureSession_eq]
  obtain ⟨m, hmi, hfi⟩ := sessionA_attached cs ⟨[]⟩ i c hi
  obtain ⟨m2, hmj, hfj⟩ := sessionA_attached cs ⟨[]⟩ j c hj
  have hmm : m = m2 := Option.some.inj (hfi.symm.trans hfj)
  subst hmm
  refine ⟨by rw [hmi, hmj], ?_⟩
  have hd := sessionA_distinct cs ⟨[]⟩ HashesDistinct.nil
  obtain ⟨e, he1, he2, he3⟩ := refcnt_at_found _ _ _ hd hfi
  refine ⟨m, e, hmi, he1, ?_⟩
  rw [he3, sessionA_refcnt cs ⟨[]⟩ (sha1_buffer c), countHash_sha1]
  simp [refcntSum]

/-- Witness for C3: the session [4], [9], [4] — streams 0 and 2 have
identical content [4]; both are attached entry 0, whose final reference
count is 2. -/
theorem C3_witness :
    nth ([[4], [9], [4]] : List (List Nat)) 0 = some [4] ∧
      nth ([[4], [9], [4]] : List (List Nat)) 2 = some [4] ∧
      (nth (captureSession ⟨[]⟩ [[4], [9], [4]]).2 0 =
          nth (captureSession ⟨[]⟩ [[4], [9], [4]]).2 2 ∧
        ∃ m e, nth (captureSession ⟨[]⟩ [[4], [9], [4]]).2 0 = some m ∧
          nth (captureSession ⟨[]⟩ [[4], [9], [4]]).1.entries m = some e ∧
          e.refcnt = countBlob [4] [[4], [9], [4]]) :=
  ⟨rfl, rfl, C3_stream_dedup [[4], [9], [4]] 0 2 [4] rfl rfl⟩

end Wimlib
